import Mathlib

/-!
# Verification of the `MessageCodec` framing codec

A shallow embedding of `src/main.rs`: the `Message` struct, and the
`MessageCodec` decoder/encoder over a growable byte buffer.

Byte buffers are modelled as `List Nat`, each element standing for one `u8`
(so a value `< 256` whenever it originates from real bytes).  Fixed-width
integer fields (`u8`, `u16`, `u32`) are modelled as `Nat` together with the
bound of their machine type where a claim needs it (`Message.WF`).

The Rust decoder can panic: `src.len() - signature_length` underflows when
`signature_length > src.len()` (and in release mode the wrapped value then
makes the slice `src[15..delimiter]` go out of bounds), and the same slice
panics whenever `delimiter < 15` because its start exceeds its end.  Both
abnormal terminations are modelled by the explicit `DecodeResult.panic`
outcome.
-/

namespace PprCodec

/-- The `Message` struct of `src/main.rs`.  Integer fields keep their Rust
names; their machine widths (`u32`, `u8`, `u16`, `u16`, `u32`, `u16`) are
recorded by `Message.WF`. -/
structure Message where
  signature_length : Nat
  version : Nat
  message_type : Nat
  service_id : Nat
  payload_length : Nat
  encrypted : Nat
  data : List Nat
  signature : List Nat
deriving Repr, DecidableEq

/-- The bounds imposed by the Rust field types `u32`/`u8`/`u16`/`u16`/`u32`/`u16`,
and bytehood of the two vectors' elements. -/
def Message.WF (m : Message) : Prop :=
  m.signature_length < 2 ^ 32 ∧ m.version < 2 ^ 8 ∧ m.message_type < 2 ^ 16 ∧
    m.service_id < 2 ^ 16 ∧ m.payload_length < 2 ^ 32 ∧ m.encrypted < 2 ^ 16

instance (m : Message) : Decidable m.WF := by
  unfold Message.WF; infer_instance

/-- `MessageCodec::SIZE_OF_WITHOUT_VECS`: `2 * size_of::<u32>() + 3 * size_of::<u16>()
+ size_of::<u8>()`, i.e. the 15-byte fixed header. -/
def SIZE_OF_WITHOUT_VECS : Nat := 2 * 4 + 3 * 2 + 1

/-- `u8::to_le_bytes`. -/
def toLE1 (n : Nat) : List Nat := [n % 256]

/-- `u16::to_le_bytes`. -/
def toLE2 (n : Nat) : List Nat := [n % 256, n / 256 % 256]

/-- `u32::to_le_bytes`. -/
def toLE4 (n : Nat) : List Nat :=
  [n % 256, n / 256 % 256, n / 256 / 256 % 256, n / 256 / 256 / 256 % 256]

/-- `u16::from_le_bytes`. -/
def fromLE2 (b0 b1 : Nat) : Nat := b0 + 256 * b1

/-- `u32::from_le_bytes`. -/
def fromLE4 (b0 b1 b2 b3 : Nat) : Nat := b0 + 256 * (b1 + 256 * (b2 + 256 * b3))

/-- Outcome of `MessageCodec::decode` on a buffer.  `incomplete` is the
`Ok(None)` return (it carries the untouched buffer), `ok` is `Ok(Some(item))`
together with the remaining buffer after `src.advance(..)`, and `panic` is the
abnormal termination caused by the underflowing subtraction
`src.len() - signature_length` or by the out-of-range slice
`src[15..delimiter]`. -/
inductive DecodeResult where
  | incomplete (src : List Nat)
  | panic
  | ok (item : Message) (src : List Nat)
deriving Repr, DecidableEq

/-- The `signature_length` header field as `decode` reads it: the first four
buffer bytes, little-endian. -/
def decodedSignatureLength (src : List Nat) : Nat :=
  fromLE4 (src.getD 0 0) (src.getD 1 0) (src.getD 2 0) (src.getD 3 0)

/-- `MessageCodec::decode` (`impl Decoder for MessageCodec`).  Reads the six
fixed header fields at their offsets, splits the rest of the buffer at
`delimiter = src.len() - signature_length`, and advances the buffer past the
consumed bytes. -/
def decode (src : List Nat) : DecodeResult :=
  if src.length < SIZE_OF_WITHOUT_VECS then
    .incomplete src
  else
    let signature_length := fromLE4 (src.getD 0 0) (src.getD 1 0) (src.getD 2 0) (src.getD 3 0)
    let version := src.getD 4 0
    let message_type := fromLE2 (src.getD 5 0) (src.getD 6 0)
    let service_id := fromLE2 (src.getD 7 0) (src.getD 8 0)
    let payload_length := fromLE4 (src.getD 9 0) (src.getD 10 0) (src.getD 11 0) (src.getD 12 0)
    let encrypted := fromLE2 (src.getD 13 0) (src.getD 14 0)
    if src.length < signature_length then
      .panic
    else
      let delimiter := src.length - signature_length
      if delimiter < SIZE_OF_WITHOUT_VECS then
        .panic
      else
        let data := (src.drop SIZE_OF_WITHOUT_VECS).take (delimiter - SIZE_OF_WITHOUT_VECS)
        let signature := src.drop delimiter
        let rest := src.drop (SIZE_OF_WITHOUT_VECS + data.length + signature.length)
        .ok
          { signature_length := signature_length
            version := version
            message_type := message_type
            service_id := service_id
            payload_length := payload_length
            encrypted := encrypted
            data := data
            signature := signature }
          rest

/-- Outcome of `MessageCodec::encode` into a destination buffer.  Both
constructors carry the destination buffer's state after the call:
`validationError` is the early `Err(InvalidData)` return (nothing written),
`ok` is the `Ok(())` return after the appends. -/
inductive EncodeResult where
  | validationError (dst : List Nat)
  | ok (dst : List Nat)
deriving Repr, DecidableEq

/-- The frame bytes `encode` appends on success: the six header fields in
little-endian order, then `data`, then `signature`. -/
def encodedFrame (item : Message) : List Nat :=
  toLE4 item.signature_length ++ toLE1 item.version ++ toLE2 item.message_type ++
    toLE2 item.service_id ++ toLE4 item.payload_length ++ toLE2 item.encrypted ++
    item.data ++ item.signature

/-- `MessageCodec::encode` (`impl Encoder<Message> for MessageCodec`).  Fails
with `InvalidData` when the declared `signature_length` differs from the
signature's actual length; otherwise appends the frame to `dst` with eight
`extend_from_slice` calls. -/
def encode (item : Message) (dst : List Nat) : EncodeResult :=
  if item.signature_length ≠ item.signature.length then
    .validationError dst
  else
    .ok (dst ++ toLE4 item.signature_length ++ toLE1 item.version ++
      toLE2 item.message_type ++ toLE2 item.service_id ++ toLE4 item.payload_length ++
      toLE2 item.encrypted ++ item.data ++ item.signature)

/-- The concrete Message of the spec's test scenario (also the message used by
the repository's `encode_message` / `decode_message` tests). -/
def msg22 : Message :=
  { signature_length := 3
    version := 5
    message_type := 12
    service_id := 9
    payload_length := 11
    encrypted := 10
    data := [3, 3, 3, 3]
    signature := [2, 2, 2] }

/-- The 22-byte wire form of `msg22`. -/
def bytes22 : List Nat :=
  [0x03, 0x00, 0x00, 0x00, 0x05, 0x0C, 0x00, 0x09, 0x00, 0x0B, 0x00, 0x00, 0x00,
   0x0A, 0x00, 0x03, 0x03, 0x03, 0x03, 0x02, 0x02, 0x02]

/-! ## Helper lemmas -/

/-- Little-endian `u16` round-trip: serialize then deserialize. -/
lemma fromLE2_toLE2 (n : Nat) (h : n < 2 ^ 16) : fromLE2 (n % 256) (n / 256 % 256) = n := by
  unfold fromLE2; omega

/-- Little-endian `u32` round-trip: serialize then deserialize. -/
lemma fromLE4_toLE4 (n : Nat) (h : n < 2 ^ 32) :
    fromLE4 (n % 256) (n / 256 % 256) (n / 256 / 256 % 256) (n / 256 / 256 / 256 % 256) = n := by
  unfold fromLE4; omega

/-- Little-endian `u16` round-trip: deserialize two bytes then serialize. -/
lemma toLE2_fromLE2 (b0 b1 : Nat) (h0 : b0 < 256) (h1 : b1 < 256) :
    toLE2 (fromLE2 b0 b1) = [b0, b1] := by
  simp only [toLE2, fromLE2, List.cons.injEq, and_true]
  constructor <;> omega

/-- Little-endian `u32` round-trip: deserialize four bytes then serialize. -/
lemma toLE4_fromLE4 (b0 b1 b2 b3 : Nat) (h0 : b0 < 256) (h1 : b1 < 256) (h2 : b2 < 256)
    (h3 : b3 < 256) : toLE4 (fromLE4 b0 b1 b2 b3) = [b0, b1, b2, b3] := by
  simp only [toLE4, fromLE4, List.cons.injEq, and_true]
  refine ⟨?_, ?_, ?_, ?_⟩ <;> omega

/-- A buffer holding at least the 15 header bytes splits as its fifteen leading
bytes followed by its tail. -/
lemma eq_cons15 (b : List Nat) (h : SIZE_OF_WITHOUT_VECS ≤ b.length) :
    b = b.getD 0 0 :: b.getD 1 0 :: b.getD 2 0 :: b.getD 3 0 :: b.getD 4 0 :: b.getD 5 0 ::
      b.getD 6 0 :: b.getD 7 0 :: b.getD 8 0 :: b.getD 9 0 :: b.getD 10 0 :: b.getD 11 0 ::
      b.getD 12 0 :: b.getD 13 0 :: b.getD 14 0 :: b.drop 15 := by
  rcases b with _ | ⟨x0, _ | ⟨x1, _ | ⟨x2, _ | ⟨x3, _ | ⟨x4, _ | ⟨x5, _ | ⟨x6, _ | ⟨x7, _ | ⟨x8,
    _ | ⟨x9, _ | ⟨x10, _ | ⟨x11, _ | ⟨x12, _ | ⟨x13, _ | ⟨x14, t⟩⟩⟩⟩⟩⟩⟩⟩⟩⟩⟩⟩⟩⟩⟩ <;>
    simp_all [SIZE_OF_WITHOUT_VECS]

/-- `decode` on a buffer written as fifteen header bytes and a tail, when the
declared signature length fits inside the tail: the success case, fully
characterised. -/
lemma decode_cons (b0 b1 b2 b3 b4 b5 b6 b7 b8 b9 b10 b11 b12 b13 b14 : Nat) (tail : List Nat)
    (hs : fromLE4 b0 b1 b2 b3 ≤ tail.length) :
    decode (b0 :: b1 :: b2 :: b3 :: b4 :: b5 :: b6 :: b7 :: b8 :: b9 :: b10 :: b11 :: b12 ::
        b13 :: b14 :: tail) =
      .ok
        { signature_length := fromLE4 b0 b1 b2 b3
          version := b4
          message_type := fromLE2 b5 b6
          service_id := fromLE2 b7 b8
          payload_length := fromLE4 b9 b10 b11 b12
          encrypted := fromLE2 b13 b14
          data := tail.take (tail.length - fromLE4 b0 b1 b2 b3)
          signature := tail.drop (tail.length - fromLE4 b0 b1 b2 b3) } [] := by
  have hd15 : List.drop 15 (b0 :: b1 :: b2 :: b3 :: b4 :: b5 :: b6 :: b7 :: b8 :: b9 :: b10 ::
      b11 :: b12 :: b13 :: b14 :: tail) = tail := rfl
  simp only [decode, SIZE_OF_WITHOUT_VECS, List.length_cons, List.getD_cons_zero,
    List.getD_cons_succ, List.drop_succ_cons, List.drop_zero]
  rw [if_neg (by omega), if_neg (by omega), if_neg (by omega)]
  rw [show tail.length + 1 + 1 + 1 + 1 + 1 + 1 + 1 + 1 + 1 + 1 + 1 + 1 + 1 + 1 + 1 -
      fromLE4 b0 b1 b2 b3 - (2 * 4 + 3 * 2 + 1) = tail.length - fromLE4 b0 b1 b2 b3 from by
    omega]
  rw [show tail.length + 1 + 1 + 1 + 1 + 1 + 1 + 1 + 1 + 1 + 1 + 1 + 1 + 1 + 1 + 1 -
      fromLE4 b0 b1 b2 b3 = 15 + (tail.length - fromLE4 b0 b1 b2 b3) from by omega]
  rw [← List.drop_drop, hd15]
  congr 1
  apply List.drop_eq_nil_of_le
  simp only [List.length_cons, List.length_take, List.length_drop]
  omega

/-- Inversion of a successful `decode`: the buffer had at least 15 bytes, the
signature fitted after the header, and every field of the result together with
the remaining buffer is determined by the input buffer. -/
lemma decode_ok_elim (src : List Nat) (m : Message) (rest : List Nat)
    (h : decode src = .ok m rest) :
    SIZE_OF_WITHOUT_VECS ≤ src.length ∧
    m.signature_length = decodedSignatureLength src ∧
    m.signature_length + SIZE_OF_WITHOUT_VECS ≤ src.length ∧
    m.data = (src.drop SIZE_OF_WITHOUT_VECS).take
      (src.length - decodedSignatureLength src - SIZE_OF_WITHOUT_VECS) ∧
    m.signature = src.drop (src.length - decodedSignatureLength src) ∧
    m.signature.length = m.signature_length ∧
    rest = src.drop (SIZE_OF_WITHOUT_VECS + m.data.length + m.signature.length) ∧
    rest = [] := by
  simp only [decode] at h
  split at h
  · exact absurd h (by simp)
  split at h
  · exact absurd h (by simp)
  split at h
  · exact absurd h (by simp)
  rename_i hc1 hc2 hc3
  injection h with h1 h2
  subst h1
  subst h2
  simp only [decodedSignatureLength]
  refine ⟨by omega, trivial, by omega, trivial, trivial, ?_, trivial, ?_⟩
  · simp only [List.length_drop]
    omega
  · apply List.drop_eq_nil_of_le
    simp only [List.length_take, List.length_drop]
    omega

/-! ## Theorems -/

/-- **C4.** For every input buffer shorter than 15 bytes, `decode` returns the
incomplete signal (`Ok(None)`), not an error and not a Message, and consumes no
bytes: the buffer carried by the result is the input buffer itself, contents
and length unchanged. -/
theorem c4_decode_incomplete_on_short_buffer (src : List Nat)
    (h : src.length < SIZE_OF_WITHOUT_VECS) :
    decode src = .incomplete src := by
  unfold decode
  rw [if_pos h]

/-- Witness for `c4_decode_incomplete_on_short_buffer` at the 3-byte buffer
`[1, 2, 3]`. -/
theorem c4_witness :
    ([1, 2, 3] : List Nat).length < SIZE_OF_WITHOUT_VECS ∧
      decode [1, 2, 3] = .incomplete [1, 2, 3] :=
  ⟨by decide, c4_decode_incomplete_on_short_buffer [1, 2, 3] (by decide)⟩

/-- **C3.** `encode` returns the validation error exactly when the declared
`signature_length` differs from the actual signature length, and in that case
the destination buffer is returned exactly as it was (nothing written).  The
iff direction makes this the only condition under which `encode` errors. -/
theorem c3_encode_validation_error (m : Message) (dst : List Nat) :
    encode m dst = .validationError dst ↔ m.signature_length ≠ m.signature.length := by
  unfold encode
  by_cases h : m.signature_length ≠ m.signature.length
  · simp [h]
  · simp [h]

/-- Witness for `c3_encode_validation_error` at a Message declaring
`signature_length = 5` over a 3-byte signature and a 2-byte prior buffer. -/
theorem c3_witness :
    encode { msg22 with signature_length := 5 } [7, 8] = .validationError [7, 8] ↔
      ({ msg22 with signature_length := 5 } : Message).signature_length ≠
        ({ msg22 with signature_length := 5 } : Message).signature.length :=
  c3_encode_validation_error { msg22 with signature_length := 5 } [7, 8]

/-- **C7.** Encoding the spec's concrete Message into an empty buffer produces
exactly the 22 bytes `03 00 00 00 05 0C 00 09 00 0B 00 00 00 0A 00 03 03 03 03
02 02 02` (little-endian header fields), and decoding those 22 bytes
reproduces the Message with nothing left over. -/
theorem c7_concrete_scenario :
    encode msg22 [] = .ok bytes22 ∧ bytes22.length = 22 ∧
      decode bytes22 = .ok msg22 [] := by
  decide

/-- **C1.** For every Message `m` whose fields fit their machine widths and
whose `signature_length` equals the length of its signature, encoding `m` and
then decoding the resulting bytes in one contiguous buffer returns `m`
field-for-field (and consumes the whole buffer). -/
theorem c1_round_trip (m : Message) (hwf : m.WF)
    (hsig : m.signature_length = m.signature.length) :
    encode m [] = .ok (encodedFrame m) ∧ decode (encodedFrame m) = .ok m [] := by
  simp only [Message.WF] at hwf
  obtain ⟨hsl, hv, hmt, hsid, hpl, he⟩ := hwf
  constructor
  · simp [encode, encodedFrame, hsig]
  · have hframe : encodedFrame m =
        m.signature_length % 256 :: m.signature_length / 256 % 256 ::
        m.signature_length / 256 / 256 % 256 :: m.signature_length / 256 / 256 / 256 % 256 ::
        m.version % 256 :: m.message_type % 256 :: m.message_type / 256 % 256 ::
        m.service_id % 256 :: m.service_id / 256 % 256 :: m.payload_length % 256 ::
        m.payload_length / 256 % 256 :: m.payload_length / 256 / 256 % 256 ::
        m.payload_length / 256 / 256 / 256 % 256 :: m.encrypted % 256 ::
        m.encrypted / 256 % 256 :: (m.data ++ m.signature) := by
      simp [encodedFrame, toLE4, toLE2, toLE1]
    have hfl4 : fromLE4 (m.signature_length % 256) (m.signature_length / 256 % 256)
        (m.signature_length / 256 / 256 % 256) (m.signature_length / 256 / 256 / 256 % 256) =
        m.signature_length := fromLE4_toLE4 m.signature_length hsl
    have hs' : fromLE4 (m.signature_length % 256) (m.signature_length / 256 % 256)
        (m.signature_length / 256 / 256 % 256) (m.signature_length / 256 / 256 / 256 % 256) ≤
        (m.data ++ m.signature).length := by
      rw [hfl4, List.length_append]
      omega
    rw [hframe, decode_cons _ _ _ _ _ _ _ _ _ _ _ _ _ _ _ _ hs']
    rw [hfl4, Nat.mod_eq_of_lt (by omega : m.version < 256),
      fromLE2_toLE2 _ hmt, fromLE2_toLE2 _ hsid, fromLE4_toLE4 _ hpl, fromLE2_toLE2 _ he,
      List.length_append,
      show m.data.length + m.signature.length - m.signature_length = m.data.length from by omega,
      List.take_left, List.drop_left]

/-- Witness for `c1_round_trip` at the concrete test Message. -/
theorem c1_witness :
    encode msg22 [] = .ok (encodedFrame msg22) ∧ decode (encodedFrame msg22) = .ok msg22 [] :=
  c1_round_trip msg22 (by decide) (by decide)

/-- **C2, counterexample.** A 15-byte buffer whose header declares
`signature_length = 1` makes `decode` fail hard (the slice `src[15..14]`
panics), refuting the claim that every buffer of length at least 15 yields a
populated Message. -/
theorem c2_counterexample :
    SIZE_OF_WITHOUT_VECS ≤ ([1, 0, 0, 0, 0, 0, 0, 0, 0, 0, 0, 0, 0, 0, 0] : List Nat).length ∧
    decode [1, 0, 0, 0, 0, 0, 0, 0, 0, 0, 0, 0, 0, 0, 0] = .panic := by decide

/-- **C2, amended.** For every input buffer of length at least 15: when the
decoded `signature_length` is at most `len − 15`, `decode` returns a populated
Message (with the whole buffer consumed); when it exceeds `len − 15`, `decode`
does not return a Message but fails hard (underflowing subtraction or
out-of-range slice). -/
theorem c2_amended_header_only_guard (src : List Nat)
    (h15 : SIZE_OF_WITHOUT_VECS ≤ src.length) :
    (decodedSignatureLength src ≤ src.length - SIZE_OF_WITHOUT_VECS →
      ∃ m, decode src = .ok m []) ∧
    (src.length - SIZE_OF_WITHOUT_VECS < decodedSignatureLength src →
      decode src = .panic) := by
  constructor
  · intro hs
    unfold decodedSignatureLength at hs
    have hdec := decode_cons (src.getD 0 0) (src.getD 1 0) (src.getD 2 0) (src.getD 3 0)
      (src.getD 4 0) (src.getD 5 0) (src.getD 6 0) (src.getD 7 0) (src.getD 8 0) (src.getD 9 0)
      (src.getD 10 0) (src.getD 11 0) (src.getD 12 0) (src.getD 13 0) (src.getD 14 0)
      (src.drop 15)
      (by simp only [List.length_drop]; simp only [SIZE_OF_WITHOUT_VECS] at hs h15; omega)
    rw [← eq_cons15 src h15] at hdec
    exact ⟨_, hdec⟩
  · intro hs
    unfold decodedSignatureLength at hs
    simp only [decode]
    rw [if_neg (by omega)]
    by_cases hc : src.length < fromLE4 (src.getD 0 0) (src.getD 1 0) (src.getD 2 0) (src.getD 3 0)
    · rw [if_pos hc]
    · rw [if_neg hc, if_pos (by omega)]

/-- Witness for `c2_amended_header_only_guard` at a 15-byte all-zero buffer. -/
theorem c2_witness :
    ∃ m, decode [0, 0, 0, 0, 0, 0, 0, 0, 0, 0, 0, 0, 0, 0, 0] = .ok m [] :=
  (c2_amended_header_only_guard [0, 0, 0, 0, 0, 0, 0, 0, 0, 0, 0, 0, 0, 0, 0] (by decide)).1
    (by decide)

/-- **C5.** On every successful decode, the data/signature split is computed
from the current total buffered length: `data` is exactly the bytes from
offset 15 up to `len − signature_length`, `signature` is exactly the trailing
`signature_length` bytes; the declared `payload_length` plays no role in
either expression. -/
theorem c5_split_from_total_length (src : List Nat) (m : Message) (rest : List Nat)
    (h : decode src = .ok m rest) :
    m.data = (src.drop SIZE_OF_WITHOUT_VECS).take
      (src.length - decodedSignatureLength src - SIZE_OF_WITHOUT_VECS) ∧
    m.signature = src.drop (src.length - decodedSignatureLength src) ∧
    m.signature.length = decodedSignatureLength src := by
  obtain ⟨-, h2, -, h4, h5, h6, -, -⟩ := decode_ok_elim src m rest h
  exact ⟨h4, h5, h2 ▸ h6⟩

/-- Witness for `c5_split_from_total_length` at the concrete 22-byte frame. -/
theorem c5_witness :
    decode bytes22 = .ok msg22 [] ∧
    (msg22.data = (bytes22.drop SIZE_OF_WITHOUT_VECS).take
        (bytes22.length - decodedSignatureLength bytes22 - SIZE_OF_WITHOUT_VECS) ∧
      msg22.signature = bytes22.drop (bytes22.length - decodedSignatureLength bytes22) ∧
      msg22.signature.length = decodedSignatureLength bytes22) :=
  ⟨by decide, c5_split_from_total_length bytes22 msg22 [] (by decide)⟩

/-- **C6.** After every successful decode, the consumed bytes are removed from
the front of the buffer and the remaining length is the original length minus
exactly `15 + len(data) + len(signature)`. -/
theorem c6_consumption_discipline (src : List Nat) (m : Message) (rest : List Nat)
    (h : decode src = .ok m rest) :
    rest = src.drop (SIZE_OF_WITHOUT_VECS + m.data.length + m.signature.length) ∧
    rest.length = src.length - (SIZE_OF_WITHOUT_VECS + m.data.length + m.signature.length) := by
  obtain ⟨-, -, -, -, -, -, h7, -⟩ := decode_ok_elim src m rest h
  exact ⟨h7, by rw [h7, List.length_drop]⟩

/-- Witness for `c6_consumption_discipline` at the concrete 22-byte frame. -/
theorem c6_witness :
    decode bytes22 = .ok msg22 [] ∧
    (([] : List Nat) = bytes22.drop (SIZE_OF_WITHOUT_VECS + msg22.data.length +
        msg22.signature.length) ∧
      ([] : List Nat).length = bytes22.length - (SIZE_OF_WITHOUT_VECS + msg22.data.length +
        msg22.signature.length)) :=
  ⟨by decide, c6_consumption_discipline bytes22 msg22 [] (by decide)⟩

/-- **C8.** A successful encode mutates the destination buffer by extension
only: the result is the old buffer followed by the frame, the frame has
exactly `15 + len(data) + len(signature)` bytes, and it consists of the six
little-endian header fields, then the full data, then the full signature.  The
appended frame does not depend on the prior buffer contents. -/
theorem c8_encode_appends_frame (m : Message) (dst : List Nat)
    (hsig : m.signature_length = m.signature.length) :
    encode m dst = .ok (dst ++ encodedFrame m) ∧
    (encodedFrame m).length = SIZE_OF_WITHOUT_VECS + m.data.length + m.signature.length ∧
    encodedFrame m =
      (toLE4 m.signature_length ++ toLE1 m.version ++ toLE2 m.message_type ++
        toLE2 m.service_id ++ toLE4 m.payload_length ++ toLE2 m.encrypted) ++
        m.data ++ m.signature := by
  refine ⟨?_, ?_, ?_⟩
  · simp [encode, encodedFrame, hsig, List.append_assoc]
  · simp [encodedFrame, toLE4, toLE2, toLE1, SIZE_OF_WITHOUT_VECS]
    omega
  · simp [encodedFrame, List.append_assoc]

/-- Witness for `c8_encode_appends_frame` at the concrete test Message and a
non-empty prior buffer. -/
theorem c8_witness :
    encode msg22 [9, 9] = .ok ([9, 9] ++ encodedFrame msg22) ∧
    (encodedFrame msg22).length = SIZE_OF_WITHOUT_VECS + msg22.data.length +
      msg22.signature.length ∧
    encodedFrame msg22 =
      (toLE4 msg22.signature_length ++ toLE1 msg22.version ++ toLE2 msg22.message_type ++
        toLE2 msg22.service_id ++ toLE4 msg22.payload_length ++ toLE2 msg22.encrypted) ++
        msg22.data ++ msg22.signature :=
  c8_encode_appends_frame msg22 [9, 9] (by decide)

/-- **C9.** Whenever `decode` succeeds, it consumes the entire buffer: the
remaining buffer is always empty, because `data` absorbs every byte between
the header and the signature boundary computed from the total buffered
length. -/
theorem c9_decode_consumes_everything (src : List Nat) (m : Message) (rest : List Nat)
    (h : decode src = .ok m rest) : rest = [] :=
  (decode_ok_elim src m rest h).2.2.2.2.2.2.2

/-- Witness for `c9_decode_consumes_everything` on the 22-byte frame with
three extra trailing bytes buffered: even then nothing is left over (the
extra bytes are swallowed into the parsed message). -/
theorem c9_witness :
    decode (bytes22 ++ [7, 7, 7]) = .ok
      { msg22 with data := [3, 3, 3, 3, 2, 2, 2], signature := [7, 7, 7] } [] ∧
    ([] : List Nat) = [] :=
  ⟨by decide, c9_decode_consumes_everything (bytes22 ++ [7, 7, 7])
    { msg22 with data := [3, 3, 3, 3, 2, 2, 2], signature := [7, 7, 7] } [] (by decide)⟩

/-- **C10.** Every Message returned by a successful decode satisfies
`signature_length = len(signature)` (so re-encoding it never hits the
validation error); and for every byte-valid buffer of length at least 15 whose
decoded `signature_length` is at most `len − 15`, encoding the decoded Message
into an empty buffer reproduces the buffer byte-for-byte. -/
theorem c10_reencode (src : List Nat) :
    (∀ m rest, decode src = .ok m rest → m.signature_length = m.signature.length) ∧
    (SIZE_OF_WITHOUT_VECS ≤ src.length →
      decodedSignatureLength src ≤ src.length - SIZE_OF_WITHOUT_VECS →
      (∀ x ∈ src, x < 256) →
      ∃ m, decode src = .ok m [] ∧ encode m [] = .ok src) := by
  constructor
  · intro m rest h
    exact ((decode_ok_elim src m rest h).2.2.2.2.2.1).symm
  · intro h15 hs hb
    have hg : ∀ i, i < src.length → src.getD i 0 < 256 := by
      intro i hi
      rw [List.getD_eq_getElem src 0 hi]
      exact hb _ (List.getElem_mem hi)
    have hlen : (15 : Nat) ≤ src.length := by
      simpa [SIZE_OF_WITHOUT_VECS] using h15
    have hs' : fromLE4 (src.getD 0 0) (src.getD 1 0) (src.getD 2 0) (src.getD 3 0) ≤
        (src.drop 15).length := by
      simp only [List.length_drop]
      simp only [decodedSignatureLength, SIZE_OF_WITHOUT_VECS] at hs
      omega
    have hdec := decode_cons (src.getD 0 0) (src.getD 1 0) (src.getD 2 0) (src.getD 3 0)
      (src.getD 4 0) (src.getD 5 0) (src.getD 6 0) (src.getD 7 0) (src.getD 8 0) (src.getD 9 0)
      (src.getD 10 0) (src.getD 11 0) (src.getD 12 0) (src.getD 13 0) (src.getD 14 0)
      (src.drop 15) hs'
    rw [← eq_cons15 src h15] at hdec
    refine ⟨_, hdec, ?_⟩
    simp only [encode]
    rw [if_neg (by
      push_neg
      simp only [List.length_drop]
      simp only [decodedSignatureLength, SIZE_OF_WITHOUT_VECS] at hs
      omega)]
    rw [toLE4_fromLE4 _ _ _ _ (hg 0 (by omega)) (hg 1 (by omega)) (hg 2 (by omega))
        (hg 3 (by omega)),
      toLE2_fromLE2 _ _ (hg 5 (by omega)) (hg 6 (by omega)),
      toLE2_fromLE2 _ _ (hg 7 (by omega)) (hg 8 (by omega)),
      toLE4_fromLE4 _ _ _ _ (hg 9 (by omega)) (hg 10 (by omega)) (hg 11 (by omega))
        (hg 12 (by omega)),
      toLE2_fromLE2 _ _ (hg 13 (by omega)) (hg 14 (by omega))]
    simp only [toLE1, Nat.mod_eq_of_lt (hg 4 (by omega)), List.nil_append, List.cons_append,
      List.append_assoc, List.take_append_drop]
    exact congrArg EncodeResult.ok (eq_cons15 src h15).symm

/-- Witness for `c10_reencode` at the concrete 22-byte frame, instantiating
both conjuncts. -/
theorem c10_witness :
    msg22.signature_length = msg22.signature.length ∧
    (∃ m, decode bytes22 = .ok m [] ∧ encode m [] = .ok bytes22) :=
  ⟨(c10_reencode bytes22).1 msg22 [] (by decide),
    (c10_reencode bytes22).2 (by decide) (by decide) (by decide)⟩

end PprCodec
